import Mathlib

/-!
Verification development for `computeSales.py`: a batch pipeline that
normalizes a product price catalog, validates a list of sales records
against it, and builds a textual report with totals and error entries.

The Python source is shallowly embedded: parsed JSON values become the
inductive type `JsonVal`; Python `dict`s become association lists with
unique keys; Python floats (used only to carry prices and totals, with
exact decimal inputs) are modelled as rationals; fallible operations
(`d[k]` subscripting, `int(...)` conversion) return `Except`, so the
exception behaviour of the aggregator is visible in the model.
-/

/-- A parsed JSON value, the input shape consumed by the core
(`json.load` output in the source). An `obj` models a Python `dict`
whose keys are distinct; lookup takes the first matching binding. -/
inductive JsonVal where
  | null
  | bool (b : Bool)
  | int (n : Int)
  | float (q : ℚ)
  | str (s : String)
  | arr (elems : List JsonVal)
  | obj (campos : List (String × JsonVal))

/-- Whitespace test used by Python's `str.strip()`, restricted to the
ASCII whitespace characters. -/
def es_espacio (c : Char) : Bool :=
  c == ' ' || c == '\t' || c == '\n' || c == '\r' || c == '\x0b' || c == '\x0c'

/-- List-level strip: drop whitespace from both ends. -/
def recortar_lista (cs : List Char) : List Char :=
  ((cs.dropWhile es_espacio).reverse.dropWhile es_espacio).reverse

/-- Model of Python `str.strip()`. -/
def recortar (s : String) : String :=
  String.mk (recortar_lista s.data)

/-- Model of Python `dict.get` on a record object: first binding wins
(keys of a Python dict are distinct). -/
def obj_get (campos : List (String × JsonVal)) (clave : String) : Option JsonVal :=
  match campos with
  | [] => none
  | kv :: resto => if kv.1 == clave then some kv.2 else obj_get resto clave

/-- Lookup in the price dictionary (`precios[k]` would raise on `none`). -/
def dict_buscar (m : List (String × ℚ)) (clave : String) : Option ℚ :=
  match m with
  | [] => none
  | kv :: resto => if kv.1 == clave then some kv.2 else dict_buscar resto clave

/-- Model of Python dict insertion `m[k] = v`: overwrite in place if the
key exists, otherwise append (insertion order preserved). -/
def dict_insertar (m : List (String × ℚ)) (clave : String) (v : ℚ) : List (String × ℚ) :=
  match m with
  | [] => [(clave, v)]
  | kv :: resto =>
      if kv.1 == clave then (clave, v) :: resto
      else kv :: dict_insertar resto clave v

/-- Model of Python `k in m` on the price dictionary. -/
def dict_contiene (m : List (String × ℚ)) (clave : String) : Bool :=
  match m with
  | [] => false
  | kv :: resto => kv.1 == clave || dict_contiene resto clave

/-- Model of Python `str.isdigit()` for the decimal-digit strings the
program is concerned with: nonempty and all characters `0`-`9`. -/
def py_isdigit (s : String) : Bool :=
  !s.data.isEmpty && s.data.all Char.isDigit

/-- Decimal value of a digit string. -/
def nat_de_digitos (cs : List Char) : Nat :=
  cs.foldl (fun acc c => acc * 10 + (c.toNat - 48)) 0

/-- Model of Python `int(s)` on a stripped character list: optional
sign followed by a nonempty run of decimal digits; anything else is a
`ValueError` (`none`). -/
def py_int_de_lista (cs : List Char) : Option Int :=
  match cs with
  | [] => none
  | c :: resto =>
      if c = '+' then
        if resto.isEmpty then none
        else if resto.all Char.isDigit then some (nat_de_digitos resto) else none
      else if c = '-' then
        if resto.isEmpty then none
        else if resto.all Char.isDigit then some (-(nat_de_digitos resto : Int)) else none
      else if (c :: resto).all Char.isDigit then some (nat_de_digitos (c :: resto)) else none

/-- Model of Python `int(s)` on a string: `int` strips surrounding
whitespace before parsing. -/
def py_int_de_cadena (s : String) : Option Int :=
  py_int_de_lista (recortar s).data

/-- Truncation toward zero, as Python `int(float)` does. -/
def truncar_rat (q : ℚ) : Int :=
  if 0 ≤ q then ⌊q⌋ else -⌊-q⌋

/-- Model of Python `int(x)` as used on record field values.
Booleans convert to 0/1, ints are returned, floats truncate, strings
parse (or raise `ValueError`), and other shapes raise `TypeError`. -/
def py_int (v : JsonVal) : Except String Int :=
  match v with
  | .bool b => Except.ok (if b then 1 else 0)
  | .int n => Except.ok n
  | .float q => Except.ok (truncar_rat q)
  | .str s =>
      match py_int_de_cadena s with
      | some n => Except.ok n
      | none => Except.error ("ValueError: invalid literal for int() with base 10: " ++ s)
  | _ => Except.error "TypeError: int() argument must be a string or a number"

/-- Model of Python `str(x)` restricted to the cases the validated flow
can reach: strings (identity) and ints; bool and None are included for
completeness. The textual rendering of floats, lists and dicts is not
modelled (empty string); no call site reaches those after validation. -/
def py_str (v : JsonVal) : String :=
  match v with
  | .str s => s
  | .int n => toString n
  | .bool b => if b then "True" else "False"
  | .null => "None"
  | _ => ""

/-- Model of Python subscripting `registro[clave]` on a JSON value:
`KeyError` when the key is missing, `TypeError` when the value is not a
dict. -/
def obj_indexar (v : JsonVal) (clave : String) : Except String JsonVal :=
  match v with
  | .obj campos =>
      match obj_get campos clave with
      | some x => Except.ok x
      | none => Except.error ("KeyError: " ++ clave)
  | _ => Except.error "TypeError: value is not subscriptable"

/-- Model of Python subscripting `precios[clave]` on the price dict. -/
def dict_indexar (m : List (String × ℚ)) (clave : String) : Except String ℚ :=
  match dict_buscar m clave with
  | some v => Except.ok v
  | none => Except.error ("KeyError: " ++ clave)

/-- Banker's rounding to an integer, as Python's float formatting uses. -/
def redondear_half_even (q : ℚ) : Int :=
  let n := ⌊q⌋
  let r := q - n
  if r < 1 / 2 then n
  else if 1 / 2 < r then n + 1
  else if n % 2 = 0 then n else n + 1

/-- Insert thousands separators into a reversed digit list. -/
def agrupar_inverso (cs : List Char) : List Char :=
  match cs with
  | a :: b :: c :: d :: resto => a :: b :: c :: ',' :: agrupar_inverso (d :: resto)
  | _ => cs

/-- Thousands grouping of a decimal digit string. -/
def agrupar_miles (s : String) : String :=
  String.mk (agrupar_inverso s.data.reverse).reverse

/-- `formatear_moneda`: model of `f"{valor:,.2f}"` — two decimals,
comma thousands grouping. -/
def formatear_moneda (valor : ℚ) : String :=
  let centavos := redondear_half_even (valor * 100)
  let abs := centavos.natAbs
  let entero := abs / 100
  let frac := abs % 100
  (if centavos < 0 then "-" else "")
    ++ agrupar_miles (toString entero)
    ++ "."
    ++ (if frac < 10 then "0" else "") ++ toString frac

/-- `isinstance(precio, (int, float))` on an optional field value.
In Python `bool` is a subclass of `int`, so booleans pass this test. -/
def es_numero_py (v : Option JsonVal) : Bool :=
  match v with
  | some (.int _) => true
  | some (.float _) => true
  | some (.bool _) => true
  | _ => false

/-- Model of Python `float(precio)` on the values accepted by
`es_numero_py` (booleans convert to 1.0/0.0). -/
def py_float_de (v : JsonVal) : ℚ :=
  match v with
  | .int n => (n : ℚ)
  | .float q => q
  | .bool b => if b then 1 else 0
  | _ => 0

/-- `isinstance(titulo, str)` on an optional field value: the string
payload when the value is a string, else nothing. -/
def titulo_str (v : Option JsonVal) : Option String :=
  match v with
  | some (.str t) => some t
  | _ => none

/-- One iteration of the catalog loop in `construir_catalogo_precios`:
element `#idx`, current dict and warning list. -/
def catalogo_paso (idx : Nat) (item : JsonVal) (precios : List (String × ℚ))
    (advertencias : List String) : List (String × ℚ) × List String :=
  match item with
  | .obj campos =>
      match titulo_str (obj_get campos "title") with
      | some t =>
          if recortar t = "" then
            (precios,
             advertencias ++
               ["Catálogo: elemento #" ++ toString idx ++ " no tiene 'title' válido (string)."])
          else if es_numero_py (obj_get campos "price") then
            (dict_insertar precios (recortar t)
               (py_float_de ((obj_get campos "price").getD JsonVal.null)),
             advertencias)
          else
            (precios,
             advertencias ++ ["Catálogo: '" ++ t ++ "' no tiene 'price' numérico válido."])
      | none =>
          (precios,
           advertencias ++
             ["Catálogo: elemento #" ++ toString idx ++ " no tiene 'title' válido (string)."])
  | _ =>
      (precios, advertencias ++ ["Catálogo: elemento #" ++ toString idx ++ " no es un objeto JSON."])

/-- The catalog loop of `construir_catalogo_precios`. -/
def construir_lista (items : List JsonVal) (idx : Nat) (precios : List (String × ℚ))
    (advertencias : List String) : List (String × ℚ) × List String :=
  match items with
  | [] => (precios, advertencias)
  | it :: resto =>
      let par := catalogo_paso idx it precios advertencias
      construir_lista resto (idx + 1) par.1 par.2

/-- `construir_catalogo_precios` (normalizeCatalog): builds the
`{title.strip(): float(price)}` lookup plus a list of warnings. -/
def construir_catalogo_precios (catalogo : JsonVal) : List (String × ℚ) × List String :=
  match catalogo with
  | .arr items => construir_lista items 1 [] []
  | _ => ([], ["El catálogo no es una lista. Se esperaba una lista de productos."])

/-- `obtener_str`: trimmed nonempty string field, else `None`. -/
def obtener_str (registro : List (String × JsonVal)) (clave : String) : Option String :=
  match obj_get registro clave with
  | some (.str s) => if recortar s = "" then none else some (recortar s)
  | _ => none

/-- `obtener_int`: integer field. Booleans are explicitly excluded,
ints are returned, strings whose stripped form `isdigit()` are parsed,
everything else (floats included) is `None`. -/
def obtener_int (registro : List (String × JsonVal)) (clave : String) : Option Int :=
  match obj_get registro clave with
  | some (.bool _) => none
  | some (.int n) => some n
  | some (.str s) =>
      if py_isdigit (recortar s) then some ((nat_de_digitos (recortar s).data : Nat) : Int)
      else none
  | _ => none

/-- `validar_registro_venta`: business validation of one raw sales
record against the price lookup. Returns the record (when it is a dict)
together with the accumulated problem messages, in check order:
SALE_ID, SALE_Date, Product, Quantity (missing / negative), product not
in catalog. The `indice` parameter mirrors the source signature and is
unused there too. -/
def validar_registro_venta (indice : Nat) (raw : JsonVal) (precios : List (String × ℚ)) :
    Option JsonVal × List String :=
  match raw with
  | .obj campos =>
      let sale_id := obtener_int campos "SALE_ID"
      let sale_date := obtener_str campos "SALE_Date"
      let producto := obtener_str campos "Product"
      let cantidad := obtener_int campos "Quantity"
      let problemas :=
        (if sale_id = none then ["SALE_ID inválido o faltante"] else [])
        ++ (if sale_date = none then ["SALE_Date inválido o faltante"] else [])
        ++ (if producto = none then ["Product inválido o faltante"] else [])
        ++ (match cantidad with
            | none => ["Quantity inválido o faltante"]
            | some c => if c < 0 then ["Quantity no puede ser negativa"] else [])
        ++ (match producto with
            | some p =>
                if dict_contiene precios p then []
                else ["Producto no existe en catálogo: '" ++ p ++ "'"]
            | none => [])
      (some (JsonVal.obj campos), problemas)
  | _ => (none, ["Registro no es un objeto JSON (dict)."])

/-- `crear_linea_tabla`: human-readable table row for one valid record,
returned together with the line total `precio_unitario * cantidad`. -/
def crear_linea_tabla (sale_id : Int) (sale_date : String) (producto : String)
    (cantidad : Int) (precio_unitario : ℚ) : String × ℚ :=
  let total_linea := precio_unitario * (cantidad : ℚ)
  (toString sale_id ++ " | " ++ sale_date ++ " | " ++ producto ++ " | "
     ++ toString cantidad ++ " | " ++ formatear_moneda precio_unitario ++ " | "
     ++ formatear_moneda total_linea,
   total_linea)

/-- `ErrorRegistro`: one error entry (1-based record index plus the
joined problem message). -/
structure ErrorRegistro where
  indice : Nat
  mensaje : String

/-- Mutable loop state of `procesar_ventas`: accumulated error entries,
emitted table lines, running total and the two counters. -/
structure EstadoVentas where
  errores : List ErrorRegistro
  lineas : List String
  total_general : ℚ
  validos : Nat
  invalidos : Nat

/-- `SEPARATOR_LINE`: 72 dashes. -/
def SEPARATOR_LINE : String := String.mk (List.replicate 72 '-')

/-- `TABLE_HEADER` of the report. -/
def TABLE_HEADER : String := "SALE_ID | SALE_Date | Product | Quantity | Unit Price | Line Total"

/-- One iteration of the sales loop in `procesar_ventas`. When the
validator reports problems, the record is counted invalid and an error
entry is appended. Otherwise the four fields and the unit price are
re-extracted from the raw record exactly as the source does
(`int(registro[...])`, `str(registro[...])`, `precios[producto]`), each
step surfacing its possible Python exception in `Except`. -/
def procesar_registro (precios : List (String × ℚ)) (idx : Nat) (raw : JsonVal)
    (st : EstadoVentas) : Except String EstadoVentas :=
  let problemas := (validar_registro_venta idx raw precios).2
  if problemas = [] then
    match (validar_registro_venta idx raw precios).1 with
    | none => Except.error "AssertionError"
    | some registro =>
        Except.bind (obj_indexar registro "SALE_ID") (fun v_id =>
        Except.bind (py_int v_id) (fun sale_id =>
        Except.bind (obj_indexar registro "SALE_Date") (fun v_fecha =>
        Except.bind (obj_indexar registro "Product") (fun v_producto =>
        Except.bind (obj_indexar registro "Quantity") (fun v_cantidad =>
        Except.bind (py_int v_cantidad) (fun cantidad =>
        Except.bind (dict_indexar precios (py_str v_producto)) (fun precio_unitario =>
          let par := crear_linea_tabla sale_id (py_str v_fecha) (py_str v_producto)
              cantidad precio_unitario
          Except.ok
            { st with
              lineas := st.lineas ++ [par.1],
              total_general := st.total_general + par.2,
              validos := st.validos + 1 })))))))
  else
    Except.ok
      { st with
        invalidos := st.invalidos + 1,
        errores := st.errores ++
          [⟨idx, String.intercalate "; " ((validar_registro_venta idx raw precios).2)⟩] }

/-- The sales loop of `procesar_ventas` (1-based `idx`). -/
def procesar_lista (precios : List (String × ℚ)) (registros : List JsonVal) (idx : Nat)
    (st : EstadoVentas) : Except String EstadoVentas :=
  match registros with
  | [] => Except.ok st
  | raw :: resto =>
      Except.bind (procesar_registro precios idx raw st) (fun st' =>
        procesar_lista precios resto (idx + 1) st')

/-- `procesar_ventas` (buildReport): produces the report text, the grand
total and the valid/invalid counters. A non-list sales value yields the
fixed two-line structural error body with zero totals. -/
def procesar_ventas (precios : List (String × ℚ)) (ventas : JsonVal) :
    Except String (String × ℚ × Nat × Nat) :=
  match ventas with
  | .arr registros =>
      Except.bind (procesar_lista precios registros 1 ⟨[], [], 0, 0, 0⟩) (fun st =>
          let lineas :=
            ["Compute Sales - Results", "",
             "Detalle de ventas (se omiten registros inválidos, pero se reportan):", "",
             TABLE_HEADER, SEPARATOR_LINE]
            ++ st.lineas
            ++ ["", SEPARATOR_LINE,
                "Valid records: " ++ toString st.validos,
                "Invalid records: " ++ toString st.invalidos,
                "Total cost: " ++ formatear_moneda st.total_general, ""]
            ++ (if st.errores.isEmpty then []
                else ["Errores detectados (la ejecución continuó):", SEPARATOR_LINE]
                  ++ st.errores.map (fun e => "[#" ++ toString e.indice ++ "] " ++ e.mensaje)
                  ++ [""])
          Except.ok (String.intercalate "\n" lineas, st.total_general, st.validos, st.invalidos))
  | _ =>
      Except.ok
        ("ERROR: El archivo de ventas no contiene una lista de registros.\nNo se puede procesar.\n",
         0, 0, 0)

/-- `construir_bloque_advertencias`: warnings block prepended to the
report when the catalog produced warnings. -/
def construir_bloque_advertencias (advertencias : List String) : String :=
  if advertencias = [] then ""
  else
    String.intercalate "\n"
      (["Advertencias del catálogo (no fatales):", SEPARATOR_LINE]
        ++ advertencias.map (fun a => "- " ++ a)
        ++ [""])

/-- The field list of a record (empty for non-objects). -/
def campos_de (raw : JsonVal) : List (String × JsonVal) :=
  match raw with
  | .obj campos => campos
  | _ => []

/-- Specification-side contribution of one raw record to the total: the
catalog unit price of the record's (validated, stripped) product times
its (validated) quantity when the validator reports no problems, and
zero otherwise. -/
def contribucion (precios : List (String × ℚ)) (raw : JsonVal) : ℚ :=
  if (validar_registro_venta 1 raw precios).2 = [] then
    ((dict_buscar precios ((obtener_str (campos_de raw) "Product").getD "")).getD 0)
      * (((obtener_int (campos_de raw) "Quantity").getD 0 : Int) : ℚ)
  else 0

/-- Specification-side total: sum of the contributions of exactly the
records with an empty validation problem list. -/
def suma_contribuciones (precios : List (String × ℚ)) (registros : List JsonVal) : ℚ :=
  (registros.map (contribucion precios)).sum

/-- The price-lookup data-model invariant: every key is its own
stripped form (keys are inserted as `title.strip()`). -/
def claves_recortadas (m : List (String × ℚ)) : Prop :=
  ∀ kv ∈ m, recortar kv.1 = kv.1

/-- Claim-side predicate: a string consisting solely of decimal digits
(nonempty). -/
def solo_digitos (s : String) : Bool :=
  !s.data.isEmpty && s.data.all Char.isDigit

/-- Claim-side well-formedness of one catalog element: an object with a
string title that is nonempty after stripping, and a price that is an
integer or floating-point number (not a boolean). -/
def bien_formado (item : JsonVal) : Bool :=
  match item with
  | .obj campos =>
      (match obj_get campos "title" with
       | some (.str t) => !(recortar t == "")
       | _ => false)
      &&
      (match obj_get campos "price" with
       | some (.int _) => true
       | some (.float _) => true
       | _ => false)
  | _ => false

/-- Claim-side stripped title of a catalog element, when present. -/
def titulo_de (item : JsonVal) : Option String :=
  match item with
  | .obj campos =>
      match obj_get campos "title" with
      | some (.str t) => some (recortar t)
      | _ => none
  | _ => none

/-- Claim-side numeric price carried by a catalog element, when
acceptable to the normalizer. -/
def precio_bruto (item : JsonVal) : Option ℚ :=
  match item with
  | .obj campos =>
      if es_numero_py (obj_get campos "price") then
        some (py_float_de ((obj_get campos "price").getD JsonVal.null))
      else none
  | _ => none

/-- Claim-side lookup by stripped title where the last occurrence in
the catalog wins. -/
def precio_segun_ultima (items : List JsonVal) (k : String) : Option ℚ :=
  match items with
  | [] => none
  | it :: resto =>
      match precio_segun_ultima resto k with
      | some q => some q
      | none => if titulo_de it = some k then precio_bruto it else none

/-! ### Helper lemmas: stripping -/

/-- The head surviving a `dropWhile` does not satisfy the predicate. -/
lemma dropWhile_head_not {α : Type} (p : α → Bool) :
    ∀ (l : List α) (c : α), (l.dropWhile p).head? = some c → p c = false := by
  intro l
  induction l with
  | nil => intro c h; simp [List.dropWhile] at h
  | cons a t ih =>
      intro c h
      rw [List.dropWhile_cons] at h
      by_cases hp : p a
      · rw [if_pos hp] at h
        exact ih c h
      · rw [if_neg hp] at h
        simp only [List.head?_cons, Option.some.injEq] at h
        subst h
        exact Bool.eq_false_iff.mpr hp

/-- A list whose head does not satisfy `p` is untouched by `dropWhile`. -/
lemma dropWhile_self_of_head {α : Type} (p : α → Bool) (l : List α)
    (h : ∀ c, l.head? = some c → p c = false) : l.dropWhile p = l := by
  cases l with
  | nil => rfl
  | cons a t =>
      rw [List.dropWhile_cons, if_neg]
      simp [h a rfl]

/-- `dropWhile` keeps the last element of a list when its result is
nonempty. -/
lemma dropWhile_getLast {α : Type} (p : α → Bool) :
    ∀ l : List α, l.dropWhile p ≠ [] → (l.dropWhile p).getLast? = l.getLast? := by
  intro l
  induction l with
  | nil => intro h; simp [List.dropWhile] at h
  | cons a t ih =>
      intro h
      rw [List.dropWhile_cons] at h ⊢
      by_cases hp : p a
      · rw [if_pos hp] at h ⊢
        have ht : t ≠ [] := by
          intro he
          rw [he] at h
          exact h (by simp [List.dropWhile])
        rw [ih h]
        cases t with
        | nil => exact absurd rfl ht
        | cons b t' => rw [List.getLast?_cons_cons]
      · rw [if_neg hp]

/-- Stripping is idempotent at the character-list level. -/
lemma recortar_lista_idem (cs : List Char) :
    recortar_lista (recortar_lista cs) = recortar_lista cs := by
  unfold recortar_lista
  set p := es_espacio with hp
  set A := cs.dropWhile p with hA
  set B := A.reverse.dropWhile p with hB
  by_cases hBe : B = []
  · simp [hBe]
  · have h1 : B.reverse.dropWhile p = B.reverse := by
      apply dropWhile_self_of_head
      intro c hc
      rw [List.head?_reverse] at hc
      have h2 : A.reverse.getLast? = some c := by
        rw [← dropWhile_getLast p A.reverse (hB ▸ hBe)]
        rw [← hB]
        exact hc
      rw [List.getLast?_reverse] at h2
      exact dropWhile_head_not p cs c (hA ▸ h2)
    rw [h1, List.reverse_reverse]
    have h2 : B.dropWhile p = B := by
      apply dropWhile_self_of_head
      intro c hc
      exact dropWhile_head_not p A.reverse c (hB ▸ hc)
    rw [h2]

/-- Stripping is idempotent. -/
lemma recortar_idem (s : String) : recortar (recortar s) = recortar s := by
  unfold recortar
  exact congrArg String.mk (recortar_lista_idem s.data)

/-! ### Helper lemmas: dictionaries -/

/-- Lookup after insertion: the inserted key maps to the new value,
other keys are untouched. -/
lemma dict_insertar_buscar (m : List (String × ℚ)) (k k' : String) (v : ℚ) :
    dict_buscar (dict_insertar m k v) k' = if k' = k then some v else dict_buscar m k' := by
  induction m with
  | nil =>
      show dict_buscar [(k, v)] k' = _
      by_cases h : k' = k
      · show (if k == k' then some v else dict_buscar [] k') = _
        rw [if_pos (beq_iff_eq.mpr h.symm), if_pos h]
      · show (if k == k' then some v else dict_buscar [] k') = _
        rw [if_neg (fun hb => h (beq_iff_eq.mp hb).symm), if_neg h]
  | cons kv resto ih =>
      by_cases hk : (kv.1 == k) = true
      · show dict_buscar (if kv.1 == k then (k, v) :: resto else kv :: dict_insertar resto k v) k'
            = _
        rw [if_pos hk]
        show (if k == k' then some v else dict_buscar resto k') = _
        by_cases h : k' = k
        · rw [if_pos (beq_iff_eq.mpr h.symm), if_pos h]
        · rw [if_neg (fun hb => h (beq_iff_eq.mp hb).symm), if_neg h]
          show _ = if kv.1 == k' then some kv.2 else dict_buscar resto k'
          rw [if_neg (fun hb => h ((beq_iff_eq.mp hb).symm.trans (beq_iff_eq.mp hk)))]
      · show dict_buscar (if kv.1 == k then (k, v) :: resto else kv :: dict_insertar resto k v) k'
            = _
        rw [if_neg hk]
        show (if kv.1 == k' then some kv.2 else dict_buscar (dict_insertar resto k v) k') = _
        by_cases h2 : (kv.1 == k') = true
        · rw [if_pos h2]
          have hk'k : ¬k' = k := fun he => hk (beq_iff_eq.mpr ((beq_iff_eq.mp h2).trans he))
          rw [if_neg hk'k]
          show _ = if kv.1 == k' then some kv.2 else dict_buscar resto k'
          rw [if_pos h2]
        · rw [if_neg h2, ih]
          by_cases h : k' = k
          · rw [if_pos h, if_pos h]
          · rw [if_neg h, if_neg h]
            show _ = if kv.1 == k' then some kv.2 else dict_buscar resto k'
            rw [if_neg h2]

/-- Membership after insertion: every binding either is the inserted
one or was present before. -/
lemma dict_insertar_mem (m : List (String × ℚ)) (k : String) (v : ℚ) :
    ∀ kv ∈ dict_insertar m k v, kv = (k, v) ∨ kv ∈ m := by
  induction m with
  | nil =>
      intro kv h
      simp [dict_insertar] at h
      exact Or.inl h
  | cons kv₀ resto ih =>
      intro kv h
      rw [dict_insertar] at h
      by_cases hk : kv₀.1 == k
      · rw [if_pos hk] at h
        rcases List.mem_cons.mp h with h1 | h2
        · exact Or.inl h1
        · exact Or.inr (List.mem_cons_of_mem _ h2)
      · rw [if_neg hk] at h
        rcases List.mem_cons.mp h with h1 | h2
        · exact Or.inr (h1 ▸ List.mem_cons_self _ _)
        · rcases ih kv h2 with h3 | h4
          · exact Or.inl h3
          · exact Or.inr (List.mem_cons_of_mem _ h4)

/-- A successful lookup hits a binding of the dictionary. -/
lemma dict_buscar_mem (m : List (String × ℚ)) (k : String) (v : ℚ)
    (h : dict_buscar m k = some v) : (k, v) ∈ m := by
  induction m with
  | nil => simp [dict_buscar] at h
  | cons kv resto ih =>
      rw [dict_buscar] at h
      by_cases hk : kv.1 == k
      · rw [if_pos hk] at h
        have h1 : kv.2 = v := by injection h
        have h2 : kv.1 = k := beq_iff_eq.mp hk
        have : kv = (k, v) := by
          cases kv
          simp at h1 h2
          rw [h1, h2]
        exact this ▸ List.mem_cons_self _ _
      · rw [if_neg hk] at h
        exact List.mem_cons_of_mem _ (ih h)

/-- A successful lookup on a dictionary whose keys are all stripped
returns for a key which is its own stripped form. -/
lemma dict_buscar_clave_recortada (m : List (String × ℚ)) (k : String) (v : ℚ)
    (hm : ∀ kv ∈ m, recortar kv.1 = kv.1) (h : dict_buscar m k = some v) :
    recortar k = k :=
  hm (k, v) (dict_buscar_mem m k v h)

/-- `dict_contiene` agrees with a successful `dict_buscar`. -/
lemma dict_contiene_buscar (m : List (String × ℚ)) (k : String) :
    dict_contiene m k = true ↔ ∃ v, dict_buscar m k = some v := by
  induction m with
  | nil => simp [dict_contiene, dict_buscar]
  | cons kv resto ih =>
      rw [dict_contiene, dict_buscar]
      by_cases hk : kv.1 == k
      · simp [hk]
      · simp only [hk, Bool.false_or, if_neg hk]
        exact ih

/-! ### Helper lemmas: extractors -/

/-- A decimal digit character is not a sign character. -/
lemma digito_no_signo (c : Char) (h : c.isDigit = true) : ¬c = '+' ∧ ¬c = '-' := by
  constructor
  · intro he
    rw [he] at h
    exact absurd h (by decide)
  · intro he
    rw [he] at h
    exact absurd h (by decide)

/-- On a nonempty all-digit character list, Python `int` parsing
returns the decimal value. -/
lemma py_int_de_lista_digitos (cs : List Char) (hne : cs.isEmpty = false)
    (hd : cs.all Char.isDigit = true) :
    py_int_de_lista cs = some ((nat_de_digitos cs : Nat) : Int) := by
  cases cs with
  | nil => simp [List.isEmpty] at hne
  | cons c resto =>
      have hc : c.isDigit = true := by
        rw [List.all_cons] at hd
        exact (Bool.and_eq_true _ _ |>.mp hd).1
      have hs := digito_no_signo c hc
      show (if c = '+' then _ else if c = '-' then _
            else if (c :: resto).all Char.isDigit then _ else _) = _
      rw [if_neg hs.1, if_neg hs.2, if_pos hd]

/-- `validar_registro_venta` ignores its index parameter. -/
lemma validar_indice (i j : Nat) (raw : JsonVal) (precios : List (String × ℚ)) :
    validar_registro_venta i raw precios = validar_registro_venta j raw precios := rfl

/-- A successful `obtener_int` determines a raw field value on which
the aggregator's later `int(...)` conversion succeeds with the same
integer. -/
lemma obtener_int_py_int (campos : List (String × JsonVal)) (clave : String) (n : Int)
    (h : obtener_int campos clave = some n) :
    ∃ v, obj_get campos clave = some v ∧ py_int v = Except.ok n := by
  cases hv : obj_get campos clave with
  | none => rw [obtener_int, hv] at h; exact absurd h (by simp)
  | some v =>
      cases v with
      | bool b => rw [obtener_int, hv] at h; exact absurd h (by simp)
      | int m =>
          rw [obtener_int, hv] at h
          refine ⟨JsonVal.int m, rfl, ?_⟩
          rw [py_int]
          injection h with h
          rw [h]
      | str s =>
          rw [obtener_int, hv] at h
          have h' : (if py_isdigit (recortar s) = true
              then some ((nat_de_digitos (recortar s).data : Nat) : Int) else none) = some n := h
          by_cases hdig : py_isdigit (recortar s) = true
          · rw [if_pos hdig] at h'
            refine ⟨JsonVal.str s, rfl, ?_⟩
            have hne : (recortar s).data.isEmpty = false := by
              rw [py_isdigit] at hdig
              have h1 := (Bool.and_eq_true _ _ |>.mp hdig).1
              cases hE : (recortar s).data.isEmpty
              · rfl
              · rw [hE] at h1
                exact absurd h1 (by decide)
            have hall : (recortar s).data.all Char.isDigit = true := by
              rw [py_isdigit] at hdig
              exact (Bool.and_eq_true _ _ |>.mp hdig).2
            rw [py_int, py_int_de_cadena, py_int_de_lista_digitos _ hne hall]
            injection h' with h'
            rw [h']
          · rw [if_neg hdig] at h'
            exact absurd h' (by simp)
      | null => rw [obtener_int, hv] at h; exact absurd h (by simp)
      | float q => rw [obtener_int, hv] at h; exact absurd h (by simp)
      | arr xs => rw [obtener_int, hv] at h; exact absurd h (by simp)
      | obj fs => rw [obtener_int, hv] at h; exact absurd h (by simp)

/-- A successful `obtener_str` exposes the raw string value of the
field: the validator works with its stripped form. -/
lemma obtener_str_crudo (campos : List (String × JsonVal)) (clave : String) (p : String)
    (h : obtener_str campos clave = some p) :
    ∃ s, obj_get campos clave = some (JsonVal.str s) ∧ p = recortar s ∧ ¬recortar s = "" := by
  cases hv : obj_get campos clave with
  | none => rw [obtener_str, hv] at h; exact absurd h (by simp)
  | some v =>
      cases v with
      | str s =>
          rw [obtener_str, hv] at h
          have h' : (if recortar s = "" then none else some (recortar s)) = some p := h
          by_cases hne : recortar s = ""
          · rw [if_pos hne] at h'
            exact absurd h' (by simp)
          · rw [if_neg hne] at h'
            injection h' with h'
            exact ⟨s, rfl, h'.symm, hne⟩
      | bool b => rw [obtener_str, hv] at h; exact absurd h (by simp)
      | int m => rw [obtener_str, hv] at h; exact absurd h (by simp)
      | null => rw [obtener_str, hv] at h; exact absurd h (by simp)
      | float q => rw [obtener_str, hv] at h; exact absurd h (by simp)
      | arr xs => rw [obtener_str, hv] at h; exact absurd h (by simp)
      | obj fs => rw [obtener_str, hv] at h; exact absurd h (by simp)

/-! ### Helper lemmas: the validator -/

/-- A record that validates with no problems is a JSON object. -/
lemma validar_vacio_obj (idx : Nat) (raw : JsonVal) (precios : List (String × ℚ))
    (h : (validar_registro_venta idx raw precios).2 = []) :
    ∃ campos, raw = JsonVal.obj campos ∧
      (validar_registro_venta idx raw precios).1 = some (JsonVal.obj campos) := by
  cases raw with
  | obj campos => exact ⟨campos, rfl, rfl⟩
  | null => exact absurd h (by simp [validar_registro_venta])
  | bool b => exact absurd h (by simp [validar_registro_venta])
  | int n => exact absurd h (by simp [validar_registro_venta])
  | float q => exact absurd h (by simp [validar_registro_venta])
  | str s => exact absurd h (by simp [validar_registro_venta])
  | arr xs => exact absurd h (by simp [validar_registro_venta])

/-- An empty problem list certifies all four field extractions, the
non-negativity of the quantity, and catalog membership of the
(stripped) product. -/
lemma validar_vacio_campos (idx : Nat) (campos : List (String × JsonVal))
    (precios : List (String × ℚ))
    (h : (validar_registro_venta idx (JsonVal.obj campos) precios).2 = []) :
    ∃ n fecha prod q,
      obtener_int campos "SALE_ID" = some n ∧
      obtener_str campos "SALE_Date" = some fecha ∧
      obtener_str campos "Product" = some prod ∧
      obtener_int campos "Quantity" = some q ∧ ¬q < 0 ∧
      dict_contiene precios prod = true := by
  simp only [validar_registro_venta, List.append_eq_nil] at h
  obtain ⟨⟨⟨⟨h1, h2⟩, h3⟩, h4⟩, h5⟩ := h
  have hn1 : ¬obtener_int campos "SALE_ID" = none := by
    intro he
    rw [if_pos he] at h1
    exact List.cons_ne_nil _ _ h1
  have hn2 : ¬obtener_str campos "SALE_Date" = none := by
    intro he
    rw [if_pos he] at h2
    exact List.cons_ne_nil _ _ h2
  have hn3 : ¬obtener_str campos "Product" = none := by
    intro he
    rw [if_pos he] at h3
    exact List.cons_ne_nil _ _ h3
  obtain ⟨n, hn⟩ := Option.ne_none_iff_exists'.mp hn1
  obtain ⟨fecha, hf⟩ := Option.ne_none_iff_exists'.mp hn2
  obtain ⟨prod, hpr⟩ := Option.ne_none_iff_exists'.mp hn3
  have hn4 : ¬obtener_int campos "Quantity" = none := by
    intro he
    rw [he] at h4
    exact List.cons_ne_nil _ _ h4
  obtain ⟨q, hq⟩ := Option.ne_none_iff_exists'.mp hn4
  rw [hq] at h4
  have h4' : (if q < 0 then ["Quantity no puede ser negativa"] else []) = [] := h4
  have hqn : ¬q < 0 := by
    intro hlt
    rw [if_pos hlt] at h4'
    exact List.cons_ne_nil _ _ h4'
  rw [hpr] at h5
  have h5' : (if dict_contiene precios prod = true then []
      else ["Producto no existe en catálogo: '" ++ prod ++ "'"]) = [] := h5
  by_cases hc : dict_contiene precios prod = true
  · exact ⟨n, fecha, prod, q, hn, hf, hpr, hq, hqn, hc⟩
  · rw [if_neg hc] at h5'
    exact absurd h5' (List.cons_ne_nil _ _)

/-! ### Helper lemmas: the aggregator -/

/-- A successful `Except.bind` splits into a successful head and a
successful continuation. -/
lemma except_bind_ok {α β : Type} (x : Except String α) (f : α → Except String β) (r : β)
    (h : Except.bind x f = Except.ok r) :
    ∃ v, x = Except.ok v ∧ f v = Except.ok r := by
  cases x with
  | error e => exact absurd h (by simp [Except.bind])
  | ok v => exact ⟨v, rfl, h⟩

/-- Case analysis of one aggregator iteration: a record with problems
only bumps the invalid counter and appends its error entry; a record
with no problems passes through the entire re-extraction chain and
appends one table line, adds its line total and bumps the valid
counter. -/
lemma procesar_registro_casos (precios : List (String × ℚ)) (idx : Nat) (raw : JsonVal)
    (st st' : EstadoVentas) (h : procesar_registro precios idx raw st = Except.ok st') :
    (¬(validar_registro_venta idx raw precios).2 = [] ∧
       st' = { st with
               invalidos := st.invalidos + 1,
               errores := st.errores ++
                 [⟨idx, String.intercalate "; " ((validar_registro_venta idx raw precios).2)⟩] })
  ∨ ((validar_registro_venta idx raw precios).2 = [] ∧
     ∃ campos v_id sale_id v_fecha v_producto v_cantidad cantidad precio_unitario,
       raw = JsonVal.obj campos ∧
       obj_indexar (JsonVal.obj campos) "SALE_ID" = Except.ok v_id ∧
       py_int v_id = Except.ok sale_id ∧
       obj_indexar (JsonVal.obj campos) "SALE_Date" = Except.ok v_fecha ∧
       obj_indexar (JsonVal.obj campos) "Product" = Except.ok v_producto ∧
       obj_indexar (JsonVal.obj campos) "Quantity" = Except.ok v_cantidad ∧
       py_int v_cantidad = Except.ok cantidad ∧
       dict_indexar precios (py_str v_producto) = Except.ok precio_unitario ∧
       st' = { st with
               lineas := st.lineas ++
                 [(crear_linea_tabla sale_id (py_str v_fecha) (py_str v_producto)
                     cantidad precio_unitario).1],
               total_general := st.total_general +
                 (crear_linea_tabla sale_id (py_str v_fecha) (py_str v_producto)
                     cantidad precio_unitario).2,
               validos := st.validos + 1 }) := by
  by_cases hp : (validar_registro_venta idx raw precios).2 = []
  · right
    refine ⟨hp, ?_⟩
    obtain ⟨campos, hraw, h1⟩ := validar_vacio_obj idx raw precios hp
    simp only [procesar_registro] at h
    rw [if_pos hp, h1] at h
    obtain ⟨v_id, ho1, h⟩ := except_bind_ok _ _ _ h
    obtain ⟨sale_id, hi1, h⟩ := except_bind_ok _ _ _ h
    obtain ⟨v_fecha, ho2, h⟩ := except_bind_ok _ _ _ h
    obtain ⟨v_producto, ho3, h⟩ := except_bind_ok _ _ _ h
    obtain ⟨v_cantidad, ho4, h⟩ := except_bind_ok _ _ _ h
    obtain ⟨cantidad, hi2, h⟩ := except_bind_ok _ _ _ h
    obtain ⟨precio_unitario, hd, h⟩ := except_bind_ok _ _ _ h
    injection h with h
    exact ⟨campos, v_id, sale_id, v_fecha, v_producto, v_cantidad,
      cantidad, precio_unitario, hraw, ho1, hi1, ho2, ho3, ho4, hi2, hd, h.symm⟩
  · left
    refine ⟨hp, ?_⟩
    simp only [procesar_registro] at h
    rw [if_neg hp] at h
    injection h with h
    exact h.symm

/-- A successful aggregator iteration increments exactly one of the
two counters, and the rest of the state moves accordingly. -/
lemma procesar_registro_dicotomia (precios : List (String × ℚ)) (idx : Nat) (raw : JsonVal)
    (st st' : EstadoVentas) (h : procesar_registro precios idx raw st = Except.ok st') :
    (st'.validos = st.validos + 1 ∧ st'.invalidos = st.invalidos ∧
       st'.errores = st.errores ∧
       ∃ l t, st'.lineas = st.lineas ++ [l] ∧ st'.total_general = st.total_general + t)
  ∨ (st'.invalidos = st.invalidos + 1 ∧ st'.validos = st.validos ∧
       st'.total_general = st.total_general ∧ st'.lineas = st.lineas ∧
       ∃ e, st'.errores = st.errores ++ [e] ∧ e.indice = idx) := by
  rcases procesar_registro_casos precios idx raw st st' h with ⟨_, hst⟩ | ⟨_, hex⟩
  · right
    rw [hst]
    exact ⟨rfl, rfl, rfl, rfl, ⟨_, rfl, rfl⟩⟩
  · left
    obtain ⟨campos, v_id, sale_id, v_fecha, v_producto, v_cantidad, cantidad,
      precio_unitario, _, _, _, _, _, _, _, _, hst⟩ := hex
    rw [hst]
    exact ⟨rfl, rfl, rfl, ⟨_, _, rfl, rfl⟩⟩

/-- Counter bookkeeping of the sales loop: a successful run adds the
list length to the sum of the two counters. -/
lemma procesar_lista_cuentas (precios : List (String × ℚ)) :
    ∀ (registros : List JsonVal) (idx : Nat) (st st' : EstadoVentas),
      procesar_lista precios registros idx st = Except.ok st' →
      st'.validos + st'.invalidos = st.validos + st.invalidos + registros.length := by
  intro registros
  induction registros with
  | nil =>
      intro idx st st' h
      simp only [procesar_lista] at h
      injection h with h
      rw [← h]
      simp
  | cons raw resto ih =>
      intro idx st st' h
      simp only [procesar_lista] at h
      obtain ⟨st1, hr, h⟩ := except_bind_ok _ _ _ h
      have hc := ih (idx + 1) st1 st' h
      rcases procesar_registro_dicotomia precios idx raw st st1 hr with
        ⟨hv, hi, _⟩ | ⟨hi, hv, _⟩
      · rw [hc, hv, hi, List.length_cons]
        omega
      · rw [hc, hv, hi, List.length_cons]
        omega

/-- Total bookkeeping of one aggregator iteration on a price lookup
with stripped keys: a successful step adds the specification-side
contribution of the record. -/
lemma procesar_registro_total (precios : List (String × ℚ)) (hk : claves_recortadas precios)
    (idx : Nat) (raw : JsonVal) (st st' : EstadoVentas)
    (h : procesar_registro precios idx raw st = Except.ok st') :
    st'.total_general = st.total_general + contribucion precios raw := by
  rcases procesar_registro_casos precios idx raw st st' h with ⟨hp, hst⟩ | ⟨hp, hex⟩
  · have hp1 : ¬(validar_registro_venta 1 raw precios).2 = [] := hp
    rw [hst]
    show st.total_general = st.total_general + contribucion precios raw
    rw [contribucion, if_neg hp1, add_zero]
  · obtain ⟨campos, v_id, sale_id, v_fecha, v_producto, v_cantidad, cantidad,
      precio_unitario, hraw, ho1, hi1, ho2, ho3, ho4, hi2, hd, hst⟩ := hex
    subst hraw
    have hp1 : (validar_registro_venta 1 (JsonVal.obj campos) precios).2 = [] := hp
    obtain ⟨n, fecha, prod, q, hn, hf, hprod, hq, hqn, hcat⟩ :=
      validar_vacio_campos idx campos precios hp
    -- identify the raw product value and its string
    obtain ⟨s, hs, hps, hsne⟩ := obtener_str_crudo campos "Product" prod hprod
    -- the subscripted Product value is the raw string
    have hvp : v_producto = JsonVal.str s := by
      rw [obj_indexar, hs] at ho3
      injection ho3 with ho3
      exact ho3.symm
    -- the code looks the price up under the raw string, successfully
    have hbs : dict_buscar precios s = some precio_unitario := by
      rw [hvp] at hd
      rw [dict_indexar] at hd
      cases hb : dict_buscar precios (py_str (JsonVal.str s)) with
      | none => rw [hb] at hd; exact absurd hd (by simp)
      | some v =>
          rw [hb] at hd
          injection hd with hd
          rw [← hd]
          exact hb
    -- stripped keys force the raw string to be already stripped
    have hss : recortar s = s := dict_buscar_clave_recortada precios s precio_unitario hk hbs
    have hps' : prod = s := by rw [hps, hss]
    -- the re-extracted quantity agrees with the validated one
    have hq' : cantidad = q := by
      obtain ⟨v, hv, hpv⟩ := obtener_int_py_int campos "Quantity" q hq
      have hvv : v_cantidad = v := by
        rw [obj_indexar, hv] at ho4
        injection ho4 with ho4
        exact ho4.symm
      rw [hvv, hpv] at hi2
      injection hi2 with hi2
      exact hi2.symm
    rw [hst]
    show st.total_general + (crear_linea_tabla sale_id (py_str v_fecha) (py_str v_producto)
        cantidad precio_unitario).2 = st.total_general + contribucion precios (JsonVal.obj campos)
    have hct : (crear_linea_tabla sale_id (py_str v_fecha) (py_str v_producto)
        cantidad precio_unitario).2 = precio_unitario * (cantidad : ℚ) := rfl
    have hcde : campos_de (JsonVal.obj campos) = campos := rfl
    rw [hct, contribucion, if_pos hp1, hcde, hprod, hq]
    simp only [Option.getD_some]
    rw [hps', hbs]
    simp only [Option.getD_some]
    rw [hq']

/-- Total bookkeeping of the sales loop: a successful run adds the sum
of the specification-side contributions. -/
lemma procesar_lista_total (precios : List (String × ℚ)) (hk : claves_recortadas precios) :
    ∀ (registros : List JsonVal) (idx : Nat) (st st' : EstadoVentas),
      procesar_lista precios registros idx st = Except.ok st' →
      st'.total_general = st.total_general + suma_contribuciones precios registros := by
  intro registros
  induction registros with
  | nil =>
      intro idx st st' h
      simp only [procesar_lista] at h
      injection h with h
      rw [← h, suma_contribuciones]
      simp
  | cons raw resto ih =>
      intro idx st st' h
      simp only [procesar_lista] at h
      obtain ⟨st1, hr, h⟩ := except_bind_ok _ _ _ h
      have h1 := procesar_registro_total precios hk idx raw st st1 hr
      have h2 := ih (idx + 1) st1 st' h
      rw [h2, h1]
      show _ = st.total_general + (List.map (contribucion precios) (raw :: resto)).sum
      rw [List.map_cons, List.sum_cons, suma_contribuciones, add_assoc]

/-! ### Helper lemmas: the catalog -/

/-- Each catalog iteration either keeps the price dictionary or inserts
under a stripped title. -/
lemma catalogo_paso_precios (idx : Nat) (item : JsonVal) (precios : List (String × ℚ))
    (advs : List String) :
    (catalogo_paso idx item precios advs).1 = precios ∨
    ∃ t v, (catalogo_paso idx item precios advs).1 = dict_insertar precios (recortar t) v := by
  cases item with
  | obj campos =>
      cases ht : titulo_str (obj_get campos "title") with
      | some t =>
          simp only [catalogo_paso, ht]
          by_cases he : recortar t = ""
          · rw [if_pos he]
            exact Or.inl rfl
          · rw [if_neg he]
            by_cases hn : es_numero_py (obj_get campos "price") = true
            · rw [if_pos hn]
              exact Or.inr ⟨t, _, rfl⟩
            · rw [if_neg hn]
              exact Or.inl rfl
      | none =>
          simp only [catalogo_paso, ht]
          exact Or.inl (by simp)
  | null => exact Or.inl rfl
  | bool b => exact Or.inl rfl
  | int n => exact Or.inl rfl
  | float q => exact Or.inl rfl
  | str s => exact Or.inl rfl
  | arr xs => exact Or.inl rfl

/-- The catalog loop preserves the stripped-keys invariant. -/
lemma construir_lista_claves :
    ∀ (items : List JsonVal) (idx : Nat) (precios : List (String × ℚ)) (advs : List String),
      claves_recortadas precios → claves_recortadas (construir_lista items idx precios advs).1 := by
  intro items
  induction items with
  | nil => intro idx precios advs h; exact h
  | cons it resto ih =>
      intro idx precios advs h
      show claves_recortadas (construir_lista resto (idx + 1)
        (catalogo_paso idx it precios advs).1 (catalogo_paso idx it precios advs).2).1
      apply ih
      rcases catalogo_paso_precios idx it precios advs with hpe | ⟨t, v, hpe⟩
      · rw [hpe]
        exact h
      · rw [hpe]
        intro kv hkv
        rcases dict_insertar_mem _ _ _ kv hkv with h1 | h2
        · rw [h1]
          exact recortar_idem t
        · exact h kv h2

/-- Every price lookup the program builds has stripped keys. -/
lemma construir_claves (catalogo : JsonVal) :
    claves_recortadas (construir_catalogo_precios catalogo).1 := by
  cases catalogo with
  | arr items =>
      exact construir_lista_claves items 1 [] [] (fun kv hkv => absurd hkv (List.not_mem_nil kv))
  | null => exact fun kv hkv => absurd hkv (List.not_mem_nil kv)
  | bool b => exact fun kv hkv => absurd hkv (List.not_mem_nil kv)
  | int n => exact fun kv hkv => absurd hkv (List.not_mem_nil kv)
  | float q => exact fun kv hkv => absurd hkv (List.not_mem_nil kv)
  | str s => exact fun kv hkv => absurd hkv (List.not_mem_nil kv)
  | obj campos => exact fun kv hkv => absurd hkv (List.not_mem_nil kv)

/-! ### Claims -/

/-- C1: for every price lookup built by the catalog normalizer and
every sales list, the `totalCost` returned by `procesar_ventas` equals
the sum, over exactly the records whose validator problem list is
empty, of the catalog unit price of the record's product times the
record's quantity; records with problems contribute nothing. -/
theorem claim_C1 (catalogo : JsonVal) (registros : List JsonVal)
    (res : String × ℚ × Nat × Nat)
    (h : procesar_ventas (construir_catalogo_precios catalogo).1 (JsonVal.arr registros) =
      Except.ok res) :
    res.2.1 = suma_contribuciones (construir_catalogo_precios catalogo).1 registros := by
  simp only [procesar_ventas] at h
  obtain ⟨st, hl, h⟩ := except_bind_ok _ _ _ h
  simp only [Except.ok.injEq] at h
  rw [← h]
  show st.total_general = _
  have ht := procesar_lista_total (construir_catalogo_precios catalogo).1
    (construir_claves catalogo) registros 1 ⟨[], [], 0, 0, 0⟩ st hl
  rw [ht]
  show (0 : ℚ) + _ = _
  rw [zero_add]

set_option maxRecDepth 8000 in
unseal Rat.add Rat.mul Rat.inv Rat.sub in
/-- C1 witness: a one-product catalog and a single valid record of
quantity 3 at unit price 10 give total 30. -/
theorem claim_C1_witness :
    (30 : ℚ) = suma_contribuciones
      (construir_catalogo_precios
        (JsonVal.arr [JsonVal.obj [("title", JsonVal.str "Widget"),
          ("price", JsonVal.int 10)]])).1
      [JsonVal.obj [("SALE_ID", JsonVal.int 1), ("SALE_Date", JsonVal.str "2024-01-01"),
        ("Product", JsonVal.str "Widget"), ("Quantity", JsonVal.int 3)]] :=
  claim_C1
    (JsonVal.arr [JsonVal.obj [("title", JsonVal.str "Widget"), ("price", JsonVal.int 10)]])
    [JsonVal.obj [("SALE_ID", JsonVal.int 1), ("SALE_Date", JsonVal.str "2024-01-01"),
      ("Product", JsonVal.str "Widget"), ("Quantity", JsonVal.int 3)]]
    ("Compute Sales - Results\n\nDetalle de ventas (se omiten registros inválidos, pero se reportan):\n\n"
      ++ TABLE_HEADER ++ "\n" ++ SEPARATOR_LINE
      ++ "\n1 | 2024-01-01 | Widget | 3 | 10.00 | 30.00\n\n" ++ SEPARATOR_LINE
      ++ "\nValid records: 1\nInvalid records: 0\nTotal cost: 30.00\n", 30, 1, 0)
    (by rfl)

/-- C2: each record contributes to exactly one side — valid count plus
a table line and a total increment, or invalid count plus exactly one
error entry — and consequently `validCount + invalidCount` equals the
length of the sales list whenever `procesar_ventas` returns. -/
theorem claim_C2 :
    (∀ (precios : List (String × ℚ)) (idx : Nat) (raw : JsonVal) (st st' : EstadoVentas),
       procesar_registro precios idx raw st = Except.ok st' →
       ((st'.validos = st.validos + 1 ∧ st'.invalidos = st.invalidos ∧
           st'.errores = st.errores ∧
           ∃ l t, st'.lineas = st.lineas ++ [l] ∧ st'.total_general = st.total_general + t)
        ∨ (st'.invalidos = st.invalidos + 1 ∧ st'.validos = st.validos ∧
           st'.total_general = st.total_general ∧ st'.lineas = st.lineas ∧
           ∃ e, st'.errores = st.errores ++ [e] ∧ e.indice = idx)))
  ∧ (∀ (precios : List (String × ℚ)) (registros : List JsonVal)
       (res : String × ℚ × Nat × Nat),
       procesar_ventas precios (JsonVal.arr registros) = Except.ok res →
       res.2.2.1 + res.2.2.2 = registros.length) := by
  constructor
  · exact procesar_registro_dicotomia
  · intro precios registros res h
    simp only [procesar_ventas] at h
    obtain ⟨st, hl, h⟩ := except_bind_ok _ _ _ h
    simp only [Except.ok.injEq] at h
    rw [← h]
    show st.validos + st.invalidos = _
    have hc := procesar_lista_cuentas precios registros 1 ⟨[], [], 0, 0, 0⟩ st hl
    rw [hc]
    show 0 + 0 + registros.length = registros.length
    omega

set_option maxRecDepth 8000 in
unseal Rat.add Rat.mul Rat.inv Rat.sub in
/-- C2 witness: on the empty sales list both counters are zero and sum
to the list length. -/
theorem claim_C2_witness : (0 : Nat) + 0 = ([] : List JsonVal).length :=
  claim_C2.2 [] []
    ("Compute Sales - Results\n\nDetalle de ventas (se omiten registros inválidos, pero se reportan):\n\n"
      ++ TABLE_HEADER ++ "\n" ++ SEPARATOR_LINE ++ "\n\n" ++ SEPARATOR_LINE
      ++ "\nValid records: 0\nInvalid records: 0\nTotal cost: 0.00\n", 0, 0, 0)
    (by rfl)

set_option maxRecDepth 8000 in
/-- C3: the claim that `procesar_ventas` never raises is contradicted
by the code: a record whose `Product` carries surrounding whitespace
validates (the validator checks the stripped form) but the aggregator
then indexes the price dictionary with the raw string and raises
`KeyError`. -/
theorem claim_C3 :
    procesar_ventas [("Widget", 10)]
      (JsonVal.arr [JsonVal.obj [("SALE_ID", JsonVal.int 1),
        ("SALE_Date", JsonVal.str "2024-01-01"),
        ("Product", JsonVal.str " Widget "), ("Quantity", JsonVal.int 2)]]) =
      Except.error ("KeyError: " ++ " Widget ") := by rfl

set_option maxRecDepth 8000 in
/-- C4: the validator accepts the whitespace-padded product record (its
problem list is empty), yet the aggregator's re-extraction of that very
record fails with `KeyError` — the safety contract of an empty problem
list is violated by the code. -/
theorem claim_C4 :
    (validar_registro_venta 1
      (JsonVal.obj [("SALE_ID", JsonVal.int 1), ("SALE_Date", JsonVal.str "2024-01-01"),
        ("Product", JsonVal.str " Widget "), ("Quantity", JsonVal.int 2)])
      [("Widget", 10)]).2 = [] ∧
    procesar_registro [("Widget", 10)] 1
      (JsonVal.obj [("SALE_ID", JsonVal.int 1), ("SALE_Date", JsonVal.str "2024-01-01"),
        ("Product", JsonVal.str " Widget "), ("Quantity", JsonVal.int 2)])
      ⟨[], [], 0, 0, 0⟩ =
      Except.error ("KeyError: " ++ " Widget ") :=
  ⟨rfl, rfl⟩

/-- C7: for every sales value that is not a list, `procesar_ventas`
returns exactly the fixed two-line structural error message with zero
total and zero counters, performing no per-record processing. -/
theorem claim_C7 (precios : List (String × ℚ)) (ventas : JsonVal)
    (h : ∀ registros, ventas ≠ JsonVal.arr registros) :
    procesar_ventas precios ventas =
      Except.ok
        ("ERROR: El archivo de ventas no contiene una lista de registros.\nNo se puede procesar.\n",
         0, 0, 0) := by
  cases ventas with
  | arr registros => exact absurd rfl (h registros)
  | null => rfl
  | bool b => rfl
  | int n => rfl
  | float q => rfl
  | str s => rfl
  | obj campos => rfl

/-- C7 witness: the empty-object sales value produces exactly the fixed
error body with zero totals. -/
theorem claim_C7_witness :
    procesar_ventas [] (JsonVal.obj []) =
      Except.ok
        ("ERROR: El archivo de ventas no contiene una lista de registros.\nNo se puede procesar.\n",
         0, 0, 0) :=
  claim_C7 [] (JsonVal.obj []) (fun _ h => JsonVal.noConfusion h)

/-- C5 counterexample: on the catalog element
`{"title": "A", "price": true}` the normalizer emits no warning and
inserts the entry `A -> 1.0` — the claim says the element is discarded
with a warning. -/
theorem claim_C5_counterexample :
    (construir_catalogo_precios (JsonVal.arr [JsonVal.obj
      [("title", JsonVal.str "A"), ("price", JsonVal.bool true)]])).2 = [] ∧
    dict_buscar (construir_catalogo_precios (JsonVal.arr [JsonVal.obj
      [("title", JsonVal.str "A"), ("price", JsonVal.bool true)]])).1 "A" = some 1 :=
  ⟨rfl, rfl⟩

/-- C5 (amended): a catalog element with a valid title and a boolean
price is accepted — in the host language booleans are integers, so the
`isinstance(precio, (int, float))` test passes and the element is
inserted with price 1.0 (true) or 0.0 (false), with no warning. -/
theorem claim_C5 (campos : List (String × JsonVal)) (t : String) (b : Bool)
    (precios : List (String × ℚ)) (advs : List String) (idx : Nat)
    (ht : obj_get campos "title" = some (JsonVal.str t)) (hne : ¬recortar t = "")
    (hp : obj_get campos "price" = some (JsonVal.bool b)) :
    catalogo_paso idx (JsonVal.obj campos) precios advs =
      (dict_insertar precios (recortar t) (if b then 1 else 0), advs) := by
  simp only [catalogo_paso, ht, titulo_str]
  rw [if_neg hne, hp]
  rw [if_pos (show es_numero_py (some (JsonVal.bool b)) = true from rfl)]
  rfl

/-- C5 witness: the counterexample element is inserted as `A -> 1`. -/
theorem claim_C5_witness :
    catalogo_paso 1 (JsonVal.obj [("title", JsonVal.str "A"), ("price", JsonVal.bool true)])
      [] [] = ([("A", 1)], []) :=
  claim_C5 [("title", JsonVal.str "A"), ("price", JsonVal.bool true)] "A" true [] [] 1
    rfl (by decide) rfl

/-- C6 counterexample: the string `" 5 "` does not consist solely of
decimal digits, yet `obtener_int` returns 5 for it (the extractor
strips the value before testing `isdigit`), contradicting the claim
that every non-digit-string case yields absent. -/
theorem claim_C6_counterexample :
    obtener_int [("Quantity", JsonVal.str " 5 ")] "Quantity" = some 5 ∧
    solo_digitos " 5 " = false :=
  ⟨rfl, rfl⟩

/-- C6 (amended): `obtener_int` returns absent for booleans, the value
for integers, the parsed integer for strings whose
whitespace-stripped form consists solely of decimal digits (so `"5"`
and `" 5 "` both yield 5), and absent in every other case — floats,
`"5.5"`, null, arrays, objects and missing keys included. -/
theorem claim_C6 (campos : List (String × JsonVal)) (clave : String) :
    (∀ b, obj_get campos clave = some (JsonVal.bool b) → obtener_int campos clave = none)
  ∧ (∀ n, obj_get campos clave = some (JsonVal.int n) → obtener_int campos clave = some n)
  ∧ (∀ s, obj_get campos clave = some (JsonVal.str s) →
        (solo_digitos (recortar s) = true →
            obtener_int campos clave = some ((nat_de_digitos (recortar s).data : Nat) : Int))
      ∧ (solo_digitos (recortar s) = false → obtener_int campos clave = none))
  ∧ (∀ q, obj_get campos clave = some (JsonVal.float q) → obtener_int campos clave = none)
  ∧ (obj_get campos clave = some JsonVal.null → obtener_int campos clave = none)
  ∧ (∀ xs, obj_get campos clave = some (JsonVal.arr xs) → obtener_int campos clave = none)
  ∧ (∀ fs, obj_get campos clave = some (JsonVal.obj fs) → obtener_int campos clave = none)
  ∧ (obj_get campos clave = none → obtener_int campos clave = none) := by
  have hsd : ∀ s, solo_digitos s = py_isdigit s := fun s => rfl
  refine ⟨?_, ?_, ?_, ?_, ?_, ?_, ?_, ?_⟩
  · intro b h
    simp only [obtener_int, h]
  · intro n h
    simp only [obtener_int, h]
  · intro s h
    constructor
    · intro hd
      rw [hsd] at hd
      simp only [obtener_int, h, hd, if_pos]
    · intro hd
      rw [hsd] at hd
      simp only [obtener_int, h, hd]
      rw [if_neg (show ¬false = true by decide)]
  · intro q h
    simp only [obtener_int, h]
  · intro h
    simp only [obtener_int, h]
  · intro xs h
    simp only [obtener_int, h]
  · intro fs h
    simp only [obtener_int, h]
  · intro h
    simp only [obtener_int, h]

/-- C6 witness: the digit string `"5"` is parsed to the integer 5. -/
theorem claim_C6_witness :
    obtener_int [("Quantity", JsonVal.str "5")] "Quantity" = some 5 :=
  ((claim_C6 [("Quantity", JsonVal.str "5")] "Quantity").2.2.1 "5" rfl).1 (by decide)

/-- C9 counterexample: for the element `{"title": " A "}` (no price)
the emitted warning interpolates the raw title `' A '`, which differs
from the warning that would reference the trimmed title `'A'`. -/
theorem claim_C9_counterexample :
    (construir_catalogo_precios (JsonVal.arr [JsonVal.obj [("title", JsonVal.str " A ")]])).2 =
      ["Catálogo: ' A ' no tiene 'price' numérico válido."] ∧
    ¬("Catálogo: ' A ' no tiene 'price' numérico válido." =
      "Catálogo: '" ++ recortar " A " ++ "' no tiene 'price' numérico válido.") :=
  ⟨rfl, by decide⟩

/-- C9 (amended): for every catalog element that is an object with a
valid title but a missing or invalid price, the warning references the
raw title exactly as it appears in the element (not its trimmed
form). -/
theorem claim_C9 (campos : List (String × JsonVal)) (t : String)
    (precios : List (String × ℚ)) (advs : List String) (idx : Nat)
    (ht : obj_get campos "title" = some (JsonVal.str t)) (hne : ¬recortar t = "")
    (hp : es_numero_py (obj_get campos "price") = false) :
    catalogo_paso idx (JsonVal.obj campos) precios advs =
      (precios, advs ++ ["Catálogo: '" ++ t ++ "' no tiene 'price' numérico válido."]) := by
  simp only [catalogo_paso, ht, titulo_str]
  rw [if_neg hne]
  rw [if_neg (by rw [hp]; exact (by decide : ¬false = true))]

/-- C9 witness: the padded-title element yields the raw-title
warning. -/
theorem claim_C9_witness :
    catalogo_paso 1 (JsonVal.obj [("title", JsonVal.str " A ")]) [] [] =
      ([], ["Catálogo: ' A ' no tiene 'price' numérico válido."]) :=
  claim_C9 [("title", JsonVal.str " A ")] " A " [] [] 1 rfl (by decide) rfl

/-- C10: the report line of every record counted as valid is built from
the raw `SALE_Date` and `Product` strings taken directly from the input
record — not from the trimmed forms the validator used — so surrounding
whitespace in a valid record's `SALE_Date` is reproduced verbatim. -/
theorem claim_C10 (precios : List (String × ℚ)) (idx : Nat)
    (campos : List (String × JsonVal)) (st st' : EstadoVentas)
    (h : procesar_registro precios idx (JsonVal.obj campos) st = Except.ok st')
    (hv : st'.validos = st.validos + 1) :
    ∃ sale_id fecha producto cantidad precio_unitario,
      obj_get campos "SALE_Date" = some (JsonVal.str fecha) ∧
      obj_get campos "Product" = some (JsonVal.str producto) ∧
      st'.lineas = st.lineas ++
        [(crear_linea_tabla sale_id fecha producto cantidad precio_unitario).1] := by
  rcases procesar_registro_casos precios idx (JsonVal.obj campos) st st' h with
    ⟨_, hst⟩ | ⟨hp, hex⟩
  · rw [hst] at hv
    have hv' : st.validos = st.validos + 1 := hv
    exact absurd hv' (by omega)
  · obtain ⟨campos', v_id, sale_id, v_fecha, v_producto, v_cantidad, cantidad,
      precio_unitario, hraw, ho1, hi1, ho2, ho3, ho4, hi2, hd, hst⟩ := hex
    injection hraw with hraw
    subst hraw
    obtain ⟨n, fecha, prod, q, hn, hf, hprod, hq, hqn, hcat⟩ :=
      validar_vacio_campos idx campos precios hp
    obtain ⟨sdate, hsd, hpsd, hsd2⟩ := obtener_str_crudo campos "SALE_Date" fecha hf
    obtain ⟨sprod, hsp, hpsp, hsp2⟩ := obtener_str_crudo campos "Product" prod hprod
    have hvf : v_fecha = JsonVal.str sdate := by
      rw [obj_indexar, hsd] at ho2
      injection ho2 with h2
      exact h2.symm
    have hvp : v_producto = JsonVal.str sprod := by
      rw [obj_indexar, hsp] at ho3
      injection ho3 with h3
      exact h3.symm
    refine ⟨sale_id, sdate, sprod, cantidad, precio_unitario, hsd, hsp, ?_⟩
    rw [hst]
    show st.lineas ++ [(crear_linea_tabla sale_id (py_str v_fecha) (py_str v_producto)
        cantidad precio_unitario).1] = _
    rw [hvf, hvp]
    rfl

set_option maxRecDepth 8000 in
unseal Rat.add Rat.mul Rat.inv Rat.sub in
/-- C10 witness: a valid record with `SALE_Date` equal to
`" 2024-01-01 "` produces a table line reproducing the padding. -/
theorem claim_C10_witness :
    ∃ sale_id fecha producto cantidad precio_unitario,
      obj_get [("SALE_ID", JsonVal.int 1), ("SALE_Date", JsonVal.str " 2024-01-01 "),
        ("Product", JsonVal.str "Widget"), ("Quantity", JsonVal.int 2)] "SALE_Date" =
        some (JsonVal.str fecha) ∧
      obj_get [("SALE_ID", JsonVal.int 1), ("SALE_Date", JsonVal.str " 2024-01-01 "),
        ("Product", JsonVal.str "Widget"), ("Quantity", JsonVal.int 2)] "Product" =
        some (JsonVal.str producto) ∧
      (⟨[], ["1 |  2024-01-01  | Widget | 2 | 10.00 | 20.00"], 20, 1, 0⟩ :
        EstadoVentas).lineas =
        ([] : List String) ++
          [(crear_linea_tabla sale_id fecha producto cantidad precio_unitario).1] :=
  claim_C10 [("Widget", 10)] 1
    [("SALE_ID", JsonVal.int 1), ("SALE_Date", JsonVal.str " 2024-01-01 "),
      ("Product", JsonVal.str "Widget"), ("Quantity", JsonVal.int 2)]
    ⟨[], [], 0, 0, 0⟩
    ⟨[], ["1 |  2024-01-01  | Widget | 2 | 10.00 | 20.00"], 20, 1, 0⟩
    (by rfl) rfl

/-- A well-formed catalog element inserts its stripped title with its
numeric price and emits no warning. -/
lemma bien_formado_paso (idx : Nat) (item : JsonVal) (precios : List (String × ℚ))
    (advs : List String) (hbf : bien_formado item = true) :
    ∃ campos t p, item = JsonVal.obj campos ∧
      obj_get campos "title" = some (JsonVal.str t) ∧ ¬recortar t = "" ∧
      obj_get campos "price" = some p ∧
      catalogo_paso idx item precios advs =
        (dict_insertar precios (recortar t) (py_float_de p), advs) ∧
      titulo_de item = some (recortar t) ∧
      precio_bruto item = some (py_float_de p) := by
  cases item with
  | obj campos =>
      simp only [bien_formado] at hbf
      rw [Bool.and_eq_true] at hbf
      obtain ⟨h1, h2⟩ := hbf
      cases ht : obj_get campos "title" with
      | none => rw [ht] at h1; simp at h1
      | some v =>
          rw [ht] at h1
          cases v with
          | str t =>
              have hne : ¬recortar t = "" := by
                have h1' : (!(recortar t == "")) = true := h1
                intro he
                rw [he] at h1'
                exact absurd h1' (by decide)
              cases hp : obj_get campos "price" with
              | none => rw [hp] at h2; simp at h2
              | some p =>
                  rw [hp] at h2
                  have hnum : es_numero_py (obj_get campos "price") = true := by
                    rw [hp]
                    cases p with
                    | int n => rfl
                    | float q => rfl
                    | null => simp at h2
                    | bool b => simp at h2
                    | str s => simp at h2
                    | arr xs => simp at h2
                    | obj fs => simp at h2
                  refine ⟨campos, t, p, rfl, ht, hne, hp, ?_, ?_, ?_⟩
                  · simp only [catalogo_paso, ht, titulo_str]
                    rw [if_neg hne, if_pos hnum, hp]
                    rfl
                  · simp only [titulo_de, ht]
                  · simp only [precio_bruto, hp]
                    rw [if_pos (hp ▸ hnum)]
                    rfl
          | null => simp at h1
          | bool b => simp at h1
          | int n => simp at h1
          | float q => simp at h1
          | arr xs => simp at h1
          | obj fs => simp at h1
  | null => simp [bien_formado] at hbf
  | bool b => simp [bien_formado] at hbf
  | int n => simp [bien_formado] at hbf
  | float q => simp [bien_formado] at hbf
  | str s => simp [bien_formado] at hbf
  | arr xs => simp [bien_formado] at hbf

/-- The catalog loop on a well-formed catalog: no warnings are added
and lookup realizes the last-occurrence-wins semantics on top of the
initial dictionary. -/
lemma construir_lista_wf :
    ∀ (items : List JsonVal) (idx : Nat) (precios : List (String × ℚ)) (advs : List String),
      (∀ it ∈ items, bien_formado it = true) →
      (construir_lista items idx precios advs).2 = advs ∧
      ∀ k, dict_buscar (construir_lista items idx precios advs).1 k =
        (match precio_segun_ultima items k with
         | some q => some q
         | none => dict_buscar precios k) := by
  intro items
  induction items with
  | nil =>
      intro idx precios advs _
      exact ⟨rfl, fun k => rfl⟩
  | cons it resto ih =>
      intro idx precios advs h
      obtain ⟨campos, t, p, hitem, ht, hne, hp, hpaso, htit, hpb⟩ :=
        bien_formado_paso idx it precios advs (h it (List.mem_cons_self it resto))
      have hresto : ∀ it' ∈ resto, bien_formado it' = true :=
        fun it' hm => h it' (List.mem_cons_of_mem _ hm)
      have hih := ih (idx + 1) (dict_insertar precios (recortar t) (py_float_de p)) advs hresto
      constructor
      · show (construir_lista resto (idx + 1)
          (catalogo_paso idx it precios advs).1 (catalogo_paso idx it precios advs).2).2 = advs
        rw [hpaso]
        exact hih.1
      · intro k
        show dict_buscar (construir_lista resto (idx + 1)
          (catalogo_paso idx it precios advs).1 (catalogo_paso idx it precios advs).2).1 k = _
        rw [hpaso]
        have hk := hih.2 k
        rw [hk]
        show _ = (match precio_segun_ultima (it :: resto) k with
                  | some q => some q
                  | none => dict_buscar precios k)
        simp only [precio_segun_ultima]
        cases hpsu : precio_segun_ultima resto k with
        | some q => rfl
        | none =>
            rw [dict_insertar_buscar]
            rw [htit, hpb]
            by_cases hkt : k = recortar t
            · rw [if_pos hkt]
              rw [if_pos (by rw [hkt])]
            · rw [if_neg hkt]
              rw [if_neg (fun he => hkt (by injection he with he; exact he.symm))]

/-- C8: for every catalog that is a list of well-formed objects (string
title nonempty after trimming, numeric non-boolean price), the
normalizer returns no warnings and its lookup answers every key query
exactly as the last-occurrence-wins map over the distinct trimmed
titles. -/
theorem claim_C8 (items : List JsonVal) (h : ∀ it ∈ items, bien_formado it = true) :
    (construir_catalogo_precios (JsonVal.arr items)).2 = [] ∧
    ∀ k, dict_buscar (construir_catalogo_precios (JsonVal.arr items)).1 k =
      precio_segun_ultima items k := by
  have hwf := construir_lista_wf items 1 [] [] h
  constructor
  · exact hwf.1
  · intro k
    show dict_buscar (construir_lista items 1 [] []).1 k = _
    rw [hwf.2 k]
    cases hpsu : precio_segun_ultima items k with
    | some q => rfl
    | none => rfl

/-- C8 witness: a three-element well-formed catalog with the duplicate
trimmed title `Widget` has no warnings and resolves `Widget` to the
last occurrence. -/
theorem claim_C8_witness :
    (construir_catalogo_precios (JsonVal.arr
      [JsonVal.obj [("title", JsonVal.str "Widget"), ("price", JsonVal.int 10)],
       JsonVal.obj [("title", JsonVal.str " Widget "), ("price", JsonVal.int 99)],
       JsonVal.obj [("title", JsonVal.str "Gadget"), ("price", JsonVal.float 3)]])).2 = [] ∧
    dict_buscar (construir_catalogo_precios (JsonVal.arr
      [JsonVal.obj [("title", JsonVal.str "Widget"), ("price", JsonVal.int 10)],
       JsonVal.obj [("title", JsonVal.str " Widget "), ("price", JsonVal.int 99)],
       JsonVal.obj [("title", JsonVal.str "Gadget"), ("price", JsonVal.float 3)]])).1 "Widget" =
      precio_segun_ultima
        [JsonVal.obj [("title", JsonVal.str "Widget"), ("price", JsonVal.int 10)],
         JsonVal.obj [("title", JsonVal.str " Widget "), ("price", JsonVal.int 99)],
         JsonVal.obj [("title", JsonVal.str "Gadget"), ("price", JsonVal.float 3)]] "Widget" :=
  ⟨(claim_C8
      [JsonVal.obj [("title", JsonVal.str "Widget"), ("price", JsonVal.int 10)],
       JsonVal.obj [("title", JsonVal.str " Widget "), ("price", JsonVal.int 99)],
       JsonVal.obj [("title", JsonVal.str "Gadget"), ("price", JsonVal.float 3)]]
      (by decide)).1,
   (claim_C8
      [JsonVal.obj [("title", JsonVal.str "Widget"), ("price", JsonVal.int 10)],
       JsonVal.obj [("title", JsonVal.str " Widget "), ("price", JsonVal.int 99)],
       JsonVal.obj [("title", JsonVal.str "Gadget"), ("price", JsonVal.float 3)]]
      (by decide)).2 "Widget"⟩
